import Mathlib

/-!
A shallow embedding of the `useAwait` React hook from `src/index.ts` of the
use-await-data repository.

The hook keeps one mutable `Map` from task identity to lifecycle status (the
generation tracker), a ref `oldEffectRef` remembering the previous
submission's task, one externally observed `result`, and one
`AbortController` per submission.  Task identities are modelled as natural
numbers (the source keys the map by the task closure's reference identity);
submissions are numbered so that each submission's `AbortController` is
identified by its submission index.  The value type `V` and the user error
payload type `E` are kept abstract, as the source is generic over the task's
value and treats rejection reasons as `unknown`.

Asynchrony is modelled as a trace of events applied to the state: a
submission (the `useMemo` block that runs on every dependency change), an
invocation of an `abort` closure (possibly one captured from an earlier
render), and the delivery of a task's settlement to the `onfulfilled` /
`onrejected` handlers created by that task's submission.  The `tick`
yield-point is a pure read of the tracker and is modelled as a function.
-/

namespace UseAwait

/-- Lifecycle statuses, mirroring `useAwait.Status = Result<unknown>["status"]`:
the tracker's value type admits all four because `updateResult` stores
`result.status` for every emitted result. -/
inductive Status
  | fulfilled
  | rejected
  | running
  | aborted
deriving DecidableEq

/-- A rejection reason: either a user error (payload in `E`) or one of the two
module-private sentinel symbols `symbolInvalidate` / `symbolAborted` declared
at the top of `src/index.ts`.  The symbols are not exported, so a user task
can never reject with one of them. -/
inductive Err (E : Type)
  | user (e : E)
  | symbolInvalidate
  | symbolAborted
deriving DecidableEq

/-- The `abort` callback built by `useCallback` on each submission: it captures
the render's task identity (`tid`, through `statuses.get(task)` and
`updateResult`) and the submission's `AbortController` (`sub`, the submission
index). -/
structure AbortClosure where
  tid : Nat
  sub : Nat
deriving DecidableEq

/-- The externally observed result, mirroring `useAwait.Result<Value>`. -/
inductive Result (V E : Type)
  | fulfilled (value : V)
  | rejected (error : Err E)
  | running (abort : AbortClosure)
  | aborted
deriving DecidableEq

/-- The `status` discriminant of a result, as read by
`statuses.set(task, result.status)` in `updateResult`. -/
def Result.status {V E : Type} : Result V E → Status
  | .fulfilled _ => .fulfilled
  | .rejected _ => .rejected
  | .running _ => .running
  | .aborted => .aborted

/-- `Map.get`: the value stored at the first (only) occurrence of the key. -/
def mapGet : List (Nat × Status) → Nat → Option Status
  | [], _ => none
  | (k', v') :: rest, k => if k' = k then some v' else mapGet rest k

/-- `Map.set`: replace the entry at the key in place, or append a new entry. -/
def mapSet : List (Nat × Status) → Nat → Status → List (Nat × Status)
  | [], k, v => [(k, v)]
  | (k', v') :: rest, k, v =>
      if k' = k then (k, v) :: rest else (k', v') :: mapSet rest k v

/-- `Map.delete`: remove the entry at the key. -/
def mapDelete : List (Nat × Status) → Nat → List (Nat × Status)
  | [], _ => []
  | (k', v') :: rest, k => if k' = k then rest else (k', v') :: mapDelete rest k

/-- The keys of the tracker are pairwise distinct (a `Map` holds at most one
entry per key; every reachable tracker state satisfies this). -/
def nodupKeys (m : List (Nat × Status)) : Prop :=
  m.Pairwise (fun p q => p.1 ≠ q.1)

instance (m : List (Nat × Status)) : Decidable (nodupKeys m) := by
  unfold nodupKeys; infer_instance

/-- The hook's mutable state: the tracker `statuses` (a `useMemo`-cached `Map`
shared by all generations), `oldEffectRef`, the `useState` result cell, the
number of submissions so far (allocating `AbortController`s), and the set of
submission indices whose controller has been aborted (the flipped signals). -/
structure HookState (V E : Type) where
  statuses : List (Nat × Status)
  oldEffectRef : Option Nat
  result : Result V E
  subCount : Nat
  signals : List Nat
deriving DecidableEq

/-- `updateResult` from `src/index.ts`: stores the emitted result's status in
the tracker under the capturing render's task identity, then replaces the
observed result (`setResult`). -/
def updateResult {V E : Type} (s : HookState V E) (tid : Nat) (r : Result V E) :
    HookState V E :=
  { s with statuses := mapSet s.statuses tid r.status, result := r }

/-- The body of an `abort` closure: if the tracker maps the closure's task to
`running`, emit `{status: aborted}` via `updateResult` and abort the closure's
controller; otherwise do nothing. -/
def abort {V E : Type} (s : HookState V E) (a : AbortClosure) : HookState V E :=
  if mapGet s.statuses a.tid = some Status.running then
    { updateResult s a.tid Result.aborted with signals := a.sub :: s.signals }
  else s

/-- `onfulfilled` of a generation: consult the tracker at the generation's task
identity; on absence (invalidated) or `aborted` do nothing, otherwise emit the
fulfilled result. -/
def onfulfilled {V E : Type} (s : HookState V E) (tid : Nat) (v : V) :
    HookState V E :=
  match mapGet s.statuses tid with
  | none => s
  | some Status.aborted => s
  | _ => updateResult s tid (Result.fulfilled v)

/-- `onrejected` of a generation: discard the two sentinel symbols, emit every
other rejection reason as a rejected result.  Note that it consults only the
error value, never the tracker. -/
def onrejected {V E : Type} (s : HookState V E) (tid : Nat) (e : Err E) :
    HookState V E :=
  match e with
  | .symbolInvalidate => s
  | .symbolAborted => s
  | .user x => updateResult s tid (Result.rejected (Err.user x))

/-- The `tick` yield-point of a generation: a pure read of the tracker at call
time.  Absence rejects with `symbolInvalidate`, `aborted` rejects with
`symbolAborted`, every other case resolves — and `resolve(tick)` resolves with
the very same tick function, here the same `Tick` value. -/
structure Tick where
  tid : Nat
deriving DecidableEq

def tick {E : Type} (statuses : List (Nat × Status)) (t : Tick) :
    Except (Err E) Tick :=
  match mapGet statuses t.tid with
  | none => Except.error Err.symbolInvalidate
  | some Status.aborted => Except.error Err.symbolAborted
  | _ => Except.ok t

/-- The `useMemo` submission block, run once per dependency change: build the
new abort closure, emit `{status: running, abort}` (which registers the task
as `running` in the tracker), delete the previous submission's task from the
tracker, remember the task in `oldEffectRef`, and allocate the next
submission's controller index.  The task itself only runs afterwards, via
later `deliver` events. -/
def submit {V E : Type} (s : HookState V E) (tid : Nat) : HookState V E :=
  let a : AbortClosure := { tid := tid, sub := s.subCount }
  let s1 := updateResult s tid (Result.running a)
  let s2 :=
    match s.oldEffectRef with
    | some old => { s1 with statuses := mapDelete s1.statuses old }
    | none => s1
  { s2 with oldEffectRef := some tid, subCount := s.subCount + 1 }

/-- External events driving the hook: a submission, an invocation of a
(possibly stale) abort closure, or delivery of a task's settlement to the
handlers of the generation identified by `tid`. -/
inductive Event (V E : Type)
  | submit (tid : Nat)
  | invokeAbort (a : AbortClosure)
  | deliverFulfilled (tid : Nat) (v : V)
  | deliverRejected (tid : Nat) (e : Err E)

/-- One step of the machine. -/
def step {V E : Type} (s : HookState V E) : Event V E → HookState V E
  | .submit tid => submit s tid
  | .invokeAbort a => abort s a
  | .deliverFulfilled tid v => onfulfilled s tid v
  | .deliverRejected tid e => onrejected s tid e

/-- The state at mount, before the first submission: empty tracker, no previous
task, and the `useState` initializer's `{status: running, abort}` result
carrying the first render's abort closure. -/
def initState (V E : Type) : HookState V E :=
  { statuses := []
    oldEffectRef := none
    result := Result.running { tid := 0, sub := 0 }
    subCount := 0
    signals := [] }

/-- Run a trace of events from the mount state. -/
def runTrace (V E : Type) (es : List (Event V E)) : HookState V E :=
  es.foldl step (initState V E)

end UseAwait

namespace UseAwait

/-! Basic lemmas about the tracker map operations. -/

theorem mapGet_mapSet_self (m : List (Nat × Status)) (k : Nat) (v : Status) :
    mapGet (mapSet m k v) k = some v := by
  induction m with
  | nil => simp [mapSet, mapGet]
  | cons p rest ih =>
    obtain ⟨b, c⟩ := p
    by_cases hb : b = k
    · simp [mapSet, mapGet, hb]
    · simp [mapSet, mapGet, hb, ih]

theorem mapGet_eq_none (m : List (Nat × Status)) (k : Nat)
    (h : ∀ q ∈ m, q.1 ≠ k) : mapGet m k = none := by
  induction m with
  | nil => rfl
  | cons p rest ih =>
    obtain ⟨b, c⟩ := p
    rw [mapGet, if_neg (h (b, c) (List.mem_cons_self _ _))]
    exact ih (fun q hq => h q (List.mem_cons_of_mem _ hq))

theorem mem_mapSet {m : List (Nat × Status)} {k : Nat} {v : Status}
    {q : Nat × Status} (h : q ∈ mapSet m k v) : q ∈ m ∨ q.1 = k := by
  induction m with
  | nil =>
    simp only [mapSet, List.mem_singleton] at h
    exact Or.inr (by rw [h])
  | cons p rest ih =>
    obtain ⟨b, c⟩ := p
    by_cases hb : b = k
    · rw [mapSet, if_pos hb] at h
      rcases List.mem_cons.mp h with h | h
      · exact Or.inr (by rw [h])
      · exact Or.inl (List.mem_cons_of_mem _ h)
    · rw [mapSet, if_neg hb] at h
      rcases List.mem_cons.mp h with h | h
      · exact Or.inl (by rw [h]; exact List.mem_cons_self _ _)
      · rcases ih h with h2 | h2
        · exact Or.inl (List.mem_cons_of_mem _ h2)
        · exact Or.inr h2

theorem nodupKeys_mapSet (m : List (Nat × Status)) (k : Nat) (v : Status)
    (h : nodupKeys m) : nodupKeys (mapSet m k v) := by
  induction m with
  | nil => simp [mapSet, nodupKeys]
  | cons p rest ih =>
    obtain ⟨b, c⟩ := p
    rw [nodupKeys, List.pairwise_cons] at h
    by_cases hb : b = k
    · subst hb
      rw [nodupKeys, mapSet, if_pos rfl, List.pairwise_cons]
      exact ⟨h.1, h.2⟩
    · rw [nodupKeys, mapSet, if_neg hb, List.pairwise_cons]
      refine ⟨fun q hq => ?_, ih h.2⟩
      rcases mem_mapSet hq with h2 | h2
      · exact h.1 q h2
      · rw [h2]; exact hb

theorem mapDelete_sublist (m : List (Nat × Status)) (k : Nat) :
    (mapDelete m k).Sublist m := by
  induction m with
  | nil => simp [mapDelete]
  | cons p rest ih =>
    obtain ⟨b, c⟩ := p
    by_cases hb : b = k
    · rw [mapDelete, if_pos hb]
      exact List.Sublist.cons _ (List.Sublist.refl rest)
    · rw [mapDelete, if_neg hb]
      exact List.Sublist.cons₂ _ ih

theorem nodupKeys_mapDelete (m : List (Nat × Status)) (k : Nat)
    (h : nodupKeys m) : nodupKeys (mapDelete m k) :=
  List.Pairwise.sublist (mapDelete_sublist m k) h

theorem mapGet_mapDelete_self (m : List (Nat × Status)) (k : Nat)
    (h : nodupKeys m) : mapGet (mapDelete m k) k = none := by
  induction m with
  | nil => rfl
  | cons p rest ih =>
    obtain ⟨b, c⟩ := p
    rw [nodupKeys, List.pairwise_cons] at h
    by_cases hb : b = k
    · rw [mapDelete, if_pos hb]
      exact mapGet_eq_none rest k (fun q hq => by rw [← hb]; exact (h.1 q hq).symm)
    · rw [mapDelete, if_neg hb, mapGet, if_neg hb]
      exact ih h.2

end UseAwait

namespace UseAwait

/-! Lemmas about submissions and settlement delivery. -/

theorem submit_result {V E : Type} (s : HookState V E) (tid : Nat) :
    (submit s tid).result = Result.running { tid := tid, sub := s.subCount } := by
  rcases ho : s.oldEffectRef with _ | old <;> simp [submit, updateResult, ho]

theorem submit_statuses_of_old {V E : Type} (s : HookState V E) (tid old : Nat)
    (ho : s.oldEffectRef = some old) :
    (submit s tid).statuses = mapDelete (mapSet s.statuses tid Status.running) old := by
  simp [submit, updateResult, ho, Result.status]

/-- Helper for the sentinel-freedom invariant: one step preserves the property
that a rejected observed result carries a user error. -/
theorem step_rejected_user {V E : Type} (s : HookState V E) (ev : Event V E)
    (h : ∀ e : Err E, s.result = Result.rejected e → ∃ x, e = Err.user x) :
    ∀ e : Err E, (step s ev).result = Result.rejected e → ∃ x, e = Err.user x := by
  intro e he
  cases ev with
  | submit tid =>
    rw [step, submit_result] at he
    exact absurd he (by simp)
  | invokeAbort a =>
    by_cases hc : mapGet s.statuses a.tid = some Status.running
    · simp [step, abort, hc, updateResult] at he
    · rw [step, abort, if_neg hc] at he
      exact h e he
  | deliverFulfilled tid v =>
    rcases hg : mapGet s.statuses tid with _ | st
    · rw [step, onfulfilled, hg] at he
      exact h e he
    · cases st
      all_goals rw [step, onfulfilled, hg] at he
      case aborted => exact h e he
      all_goals simp [updateResult] at he
  | deliverRejected tid er =>
    cases er with
    | symbolInvalidate => rw [step, onrejected] at he; exact h e he
    | symbolAborted => rw [step, onrejected] at he; exact h e he
    | user x =>
      rw [step, onrejected] at he
      simp [updateResult] at he
      exact ⟨x, he.symm⟩

/-- Helper: the sentinel-freedom property holds along every trace. -/
theorem foldl_rejected_user {V E : Type} (s : HookState V E) (es : List (Event V E))
    (h : ∀ e : Err E, s.result = Result.rejected e → ∃ x, e = Err.user x) :
    ∀ e : Err E, (es.foldl step s).result = Result.rejected e → ∃ x, e = Err.user x := by
  induction es generalizing s with
  | nil => exact h
  | cons ev rest ih => exact ih (step s ev) (step_rejected_user s ev h)

end UseAwait

namespace UseAwait

/-- C1: the claim says a superseded generation's settlement never changes the
externally observed result; the code violates it: after task 0 is superseded by
task 1, delivering task 0's rejection with a user error still overwrites the
observed result (the `onrejected` filter checks only the two sentinels, not the
tracker), so the result moves from `running` to `rejected`. -/
theorem claim_C1_stale_user_rejection_surfaces :
    (runTrace Nat Nat [Event.submit 0, Event.submit 1]).result
        = Result.running { tid := 1, sub := 1 }
      ∧ (runTrace Nat Nat [Event.submit 0, Event.submit 1,
          Event.deliverRejected 0 (Err.user 3)]).result
          = Result.rejected (Err.user 3) := by decide

/-- C2: the claim says that after `abort()` the status stays `aborted` whether
the task later fulfills or rejects; the code violates the rejection half: after
aborting generation 0 the observed result is `aborted`, but delivering the
task's rejection with a user error overwrites it with `rejected`. -/
theorem claim_C2_aborted_then_user_rejection :
    (runTrace Nat Nat [Event.submit 0, Event.invokeAbort { tid := 0, sub := 0 }]).result
        = Result.aborted
      ∧ (runTrace Nat Nat [Event.submit 0, Event.invokeAbort { tid := 0, sub := 0 },
          Event.deliverRejected 0 (Err.user 5)]).result
          = Result.rejected (Err.user 5) := by decide

/-- C3 counterexample: the claim says the tracker only ever holds `running` or
`aborted` and that settlement removes the entry; after submitting task 0 and
delivering its fulfillment, the tracker still maps 0 — to `fulfilled`. -/
theorem claim_C3_counterexample :
    mapGet (runTrace Nat Nat [Event.submit 0,
        Event.deliverFulfilled 0 5]).statuses 0 = some Status.fulfilled := by decide

/-- C3 amended: delivering a settlement does not remove the generation's tracker
entry; it overwrites it with the settled status (`fulfilled` via `onfulfilled`
when the tracked status is neither absent nor `aborted`, `rejected` via
`onrejected` for a user error), and the entry is removed only when a later
submission invalidates it. -/
theorem claim_C3_settlement_updates_tracker {V E : Type} (s : HookState V E)
    (tid tid2 : Nat) (v : V) (x : E)
    (h1 : mapGet s.statuses tid ≠ none)
    (h2 : mapGet s.statuses tid ≠ some Status.aborted)
    (h4 : s.oldEffectRef = some tid) (h5 : nodupKeys s.statuses) :
    mapGet (step s (Event.deliverFulfilled tid v)).statuses tid = some Status.fulfilled
      ∧ mapGet (step s (Event.deliverRejected tid (Err.user x))).statuses tid
          = some Status.rejected
      ∧ mapGet (step s (Event.submit tid2)).statuses tid = none := by
  refine ⟨?_, ?_, ?_⟩
  · rcases hg : mapGet s.statuses tid with _ | st
    · exact absurd hg h1
    · cases st
      case aborted => exact absurd hg h2
      all_goals
        rw [step, onfulfilled, hg]
        simp [updateResult, Result.status, mapGet_mapSet_self]
  · rw [step, onrejected]
    simp [updateResult, Result.status, mapGet_mapSet_self]
  · rw [step, submit_statuses_of_old s tid2 tid h4]
    have hd : mapGet (mapDelete (mapSet s.statuses tid2 Status.running) tid) tid = none :=
      mapGet_mapDelete_self _ _ (nodupKeys_mapSet _ _ _ h5)
    exact hd

theorem claim_C3_witness :
    mapGet (step (⟨[(0, Status.running)], some 0, Result.running { tid := 0, sub := 0 },
          1, []⟩ : HookState Nat Nat) (Event.deliverFulfilled 0 5)).statuses 0
        = some Status.fulfilled
      ∧ mapGet (step (⟨[(0, Status.running)], some 0, Result.running { tid := 0, sub := 0 },
          1, []⟩ : HookState Nat Nat) (Event.deliverRejected 0 (Err.user 2))).statuses 0
          = some Status.rejected
      ∧ mapGet (step (⟨[(0, Status.running)], some 0, Result.running { tid := 0, sub := 0 },
          1, []⟩ : HookState Nat Nat) (Event.submit 1)).statuses 0 = none :=
  claim_C3_settlement_updates_tracker
    (⟨[(0, Status.running)], some 0, Result.running { tid := 0, sub := 0 }, 1, []⟩ :
      HookState Nat Nat)
    0 1 5 2 (by decide) (by decide) rfl (by decide)

end UseAwait

namespace UseAwait

/-- C4: a tick call is decided immediately and solely from the tracker state at
call time: it rejects with `symbolInvalidate` exactly when the generation is
absent from the tracker, rejects with `symbolAborted` exactly when the tracked
status is `aborted`, and resolves in every other case. -/
theorem claim_C4_tick_cases {E : Type} (m : List (Nat × Status)) (t : Tick) :
    (tick (E := E) m t = Except.error Err.symbolInvalidate ↔ mapGet m t.tid = none)
      ∧ (tick (E := E) m t = Except.error Err.symbolAborted
          ↔ mapGet m t.tid = some Status.aborted)
      ∧ (tick (E := E) m t = Except.ok t
          ↔ (mapGet m t.tid ≠ none ∧ mapGet m t.tid ≠ some Status.aborted)) := by
  rcases hg : mapGet m t.tid with _ | st
  · simp [tick, hg]
  · cases st <;> simp [tick, hg]

/-- C5: invoking an abort closure while its generation's tracked status is
`running` yields exactly one mutation — the result becomes `aborted`, the
tracker entry is marked `aborted` and the closure's controller signal is
flipped; in every other tracked state the invocation leaves the whole state
unchanged, so a second invocation is always a no-op. -/
theorem claim_C5_abort_once {V E : Type} (s : HookState V E) (a : AbortClosure) :
    (mapGet s.statuses a.tid = some Status.running →
        step s (Event.invokeAbort a)
          = { s with statuses := mapSet s.statuses a.tid Status.aborted,
                     result := Result.aborted,
                     signals := a.sub :: s.signals })
      ∧ (mapGet s.statuses a.tid ≠ some Status.running →
          step s (Event.invokeAbort a) = s)
      ∧ step (step s (Event.invokeAbort a)) (Event.invokeAbort a)
          = step s (Event.invokeAbort a) := by
  refine ⟨fun hc => ?_, fun hc => ?_, ?_⟩
  · rw [step, abort, if_pos hc]
    simp [updateResult, Result.status]
  · rw [step, abort, if_neg hc]
  · by_cases hc : mapGet s.statuses a.tid = some Status.running
    · have h1 : step s (Event.invokeAbort a)
          = { s with statuses := mapSet s.statuses a.tid Status.aborted,
                     result := Result.aborted, signals := a.sub :: s.signals } := by
        rw [step, abort, if_pos hc]
        simp [updateResult, Result.status]
      rw [h1, step, abort,
        if_neg (by simp [mapGet_mapSet_self])]
    · have h1 : step s (Event.invokeAbort a) = s := by rw [step, abort, if_neg hc]
      rw [h1, step, abort, if_neg hc]

/-- C6: every submission synchronously emits a `running` result carrying the
fresh abort closure before the task can deliver anything (in the trace
semantics the task's events only come after the submission step), and the
`useState` initializer already reads `running` as well. -/
theorem claim_C6_running_on_submission {V E : Type} (s : HookState V E) (tid : Nat) :
    (step s (Event.submit tid)).result
        = Result.running { tid := tid, sub := s.subCount }
      ∧ (initState V E).result = Result.running { tid := 0, sub := 0 } :=
  ⟨submit_result s tid, rfl⟩

/-- C7: the two sentinels are never surfaced: along any trace from the mount
state, a `rejected` observed result always carries a user error, and a
settlement delivery whose rejection reason is one of the sentinels is discarded
at the settlement boundary, leaving the state unchanged. -/
theorem claim_C7_sentinels_never_surface (V E : Type) (es : List (Event V E)) :
    (∀ e : Err E, (runTrace V E es).result = Result.rejected e → ∃ x, e = Err.user x)
      ∧ (∀ (s : HookState V E) (tid : Nat),
          step s (Event.deliverRejected tid Err.symbolInvalidate) = s
            ∧ step s (Event.deliverRejected tid Err.symbolAborted) = s) := by
  constructor
  · exact foldl_rejected_user (initState V E) es (by intro e he; simp [initState] at he)
  · intro s tid
    exact ⟨rfl, rfl⟩

/-- C8 counterexample: the claim says a successful tick returns a new
yield-point function, not the original one; in the code `resolve(tick)`
resolves with the very same tick function, so the returned yield-point equals
the one that was called. -/
theorem claim_C8_counterexample :
    tick (E := Nat) [(0, Status.running)] { tid := 0 } = Except.ok { tid := 0 } := rfl

/-- C8 amended: when its generation's tracked status is `running`, a tick call
succeeds by resolving with a yield-point function for the next checkpoint — in
the implementation the very same function — and each checkpoint's decision is
made per call by re-reading the tracker at call time. -/
theorem claim_C8_tick_resolves_self {E : Type} (m : List (Nat × Status)) (t : Tick)
    (h : mapGet m t.tid = some Status.running) : tick (E := E) m t = Except.ok t := by
  rw [tick, h]

theorem claim_C8_witness :
    tick (E := Unit) [(1, Status.running)] { tid := 1 } = Except.ok { tid := 1 } :=
  claim_C8_tick_resolves_self [(1, Status.running)] { tid := 1 } rfl

/-- C9: invoking an abort closure whose generation has been superseded (its
tracker entry deleted) is a silent no-op: the whole hook state — observed
result, tracker and flipped signals — is unchanged. -/
theorem claim_C9_stale_abort_noop {V E : Type} (s : HookState V E) (a : AbortClosure)
    (h : mapGet s.statuses a.tid = none) : step s (Event.invokeAbort a) = s := by
  rw [step, abort, if_neg (by rw [h]; exact fun hh => Option.noConfusion hh)]

theorem claim_C9_witness :
    step (runTrace Nat Nat [Event.submit 0, Event.submit 1])
        (Event.invokeAbort { tid := 0, sub := 0 })
      = runTrace Nat Nat [Event.submit 0, Event.submit 1] :=
  claim_C9_stale_abort_noop (runTrace Nat Nat [Event.submit 0, Event.submit 1])
    { tid := 0, sub := 0 } (by decide)

/-- C10 counterexample: the claim says a generation that reuses the previous
generation's task identity is never settled and the result remains `running`;
but if its task rejects with a user error, the rejection is surfaced and the
observed result becomes `rejected`. -/
theorem claim_C10_counterexample :
    (runTrace Nat Nat [Event.submit 0, Event.submit 0,
        Event.deliverRejected 0 (Err.user 7)]).result
      = Result.rejected (Err.user 7) := by decide

theorem onfulfilled_none {V E : Type} (s : HookState V E) (tid : Nat) (v : V)
    (h : mapGet s.statuses tid = none) : onfulfilled s tid v = s := by
  rw [onfulfilled.eq_def, h]

/-- C10 amended: resubmitting the same task identity deletes the new
generation's own tracker entry (registration happens before the old entry is
deleted), so every subsequent tick rejects with `symbolInvalidate`, its
fulfillment is discarded, and the result emitted at submission stays `running`
— unless the task rejects with a non-sentinel error, which still surfaces as
`rejected`. -/
theorem claim_C10_same_task_resubmission {V E : Type} (s : HookState V E)
    (tid : Nat) (v : V) (x : E)
    (hn : nodupKeys s.statuses) (ho : s.oldEffectRef = some tid) :
    mapGet (step s (Event.submit tid)).statuses tid = none
      ∧ tick (E := E) (step s (Event.submit tid)).statuses { tid := tid }
          = Except.error Err.symbolInvalidate
      ∧ step (step s (Event.submit tid)) (Event.deliverFulfilled tid v)
          = step s (Event.submit tid)
      ∧ (step s (Event.submit tid)).result
          = Result.running { tid := tid, sub := s.subCount }
      ∧ (step (step s (Event.submit tid)) (Event.deliverRejected tid (Err.user x))).result
          = Result.rejected (Err.user x) := by
  have hst : (step s (Event.submit tid)).statuses
      = mapDelete (mapSet s.statuses tid Status.running) tid :=
    submit_statuses_of_old s tid tid ho
  have hnone : mapGet (step s (Event.submit tid)).statuses tid = none := by
    rw [hst]
    exact mapGet_mapDelete_self _ _ (nodupKeys_mapSet _ _ _ hn)
  refine ⟨hnone, ?_, ?_, submit_result s tid, ?_⟩
  · rw [tick, hnone]
  · exact onfulfilled_none (step s (Event.submit tid)) tid v hnone
  · rfl

theorem claim_C10_witness :
    mapGet (step (⟨[(0, Status.running)], some 0, Result.running { tid := 0, sub := 0 },
          1, []⟩ : HookState Nat Nat) (Event.submit 0)).statuses 0 = none
      ∧ tick (E := Nat) (step (⟨[(0, Status.running)], some 0,
          Result.running { tid := 0, sub := 0 }, 1, []⟩ : HookState Nat Nat)
            (Event.submit 0)).statuses { tid := 0 }
          = Except.error Err.symbolInvalidate
      ∧ step (step (⟨[(0, Status.running)], some 0, Result.running { tid := 0, sub := 0 },
          1, []⟩ : HookState Nat Nat) (Event.submit 0)) (Event.deliverFulfilled 0 9)
          = step (⟨[(0, Status.running)], some 0, Result.running { tid := 0, sub := 0 },
            1, []⟩ : HookState Nat Nat) (Event.submit 0)
      ∧ (step (⟨[(0, Status.running)], some 0, Result.running { tid := 0, sub := 0 },
          1, []⟩ : HookState Nat Nat) (Event.submit 0)).result
          = Result.running { tid := 0, sub := 1 }
      ∧ (step (step (⟨[(0, Status.running)], some 0, Result.running { tid := 0, sub := 0 },
          1, []⟩ : HookState Nat Nat) (Event.submit 0))
            (Event.deliverRejected 0 (Err.user 7))).result
          = Result.rejected (Err.user 7) :=
  claim_C10_same_task_resubmission
    (⟨[(0, Status.running)], some 0, Result.running { tid := 0, sub := 0 }, 1, []⟩ :
      HookState Nat Nat)
    0 9 7 (by decide) rfl

end UseAwait
